import Mathlib

/-!
Verification of the core of `voc.py`: a persistent memoizing cache, the
failure-pruning module loader, and the build orchestration that renders
HTML pages and a search index for a set of Python modules.

The Python source is embedded shallowly: character-level string operations
(`split`, `join`, `replace`, `count`, `in`) are modelled on `List Char`,
the filesystem is a map from path strings to file data, external pdoc /
jinja2 collaborators are abstract function parameters, and exceptions are
modelled with `Except` / explicit outcome types.
-/

namespace Voc

/-! ## Character-level string operations used by `voc.py` -/

/-- `startsWithChars s pat`: the char list `pat` is a prefix of `s`. -/
def startsWithChars : List Char → List Char → Bool
  | _, [] => true
  | [], _ :: _ => false
  | c :: cs, p :: ps => decide (c = p) && startsWithChars cs ps

/-- `hasSubChars s pat`: `pat` occurs as a contiguous substring of `s`. -/
def hasSubChars : List Char → List Char → Bool
  | [], pat => pat.isEmpty
  | c :: cs, pat => startsWithChars (c :: cs) pat || hasSubChars cs pat

/-- Python `pat in s` on strings: substring containment. -/
def containsSub (s pat : String) : Bool :=
  hasSubChars s.toList pat.toList

/-- Python `name.split(".")` on the character list of `name`:
split into (possibly empty) groups at every dot. -/
def splitDot : List Char → List (List Char)
  | [] => [[]]
  | c :: cs =>
      match splitDot cs with
      | [] => [[c]]
      | g :: gs => if c = '.' then [] :: g :: gs else (c :: g) :: gs

/-- Python `".".join(s)` where `s` is a string (an iterable of characters):
the characters interleaved with dots. -/
def dotJoinChars : List Char → List Char
  | [] => []
  | [c] => [c]
  | c :: cs => c :: '.' :: dotJoinChars cs

/-- Python lexicographic `<=` on strings, compared char by char by code point. -/
def charListLe : List Char → List Char → Bool
  | [], _ => true
  | _ :: _, [] => false
  | a :: as, b :: bs => if a = b then charListLe as bs else decide (a < b)

/-- String `<=` as Python compares strings. -/
def strLe (a b : String) : Bool :=
  charListLe a.toList b.toList

/-! ## The failure-pruning loader (`load_modules`) -/

/-- Outcome of `pdoc.doc.Module.from_name(name)` for one candidate name:
success with a module value, a raised `RuntimeError` carrying its message,
or any other raised exception. -/
inductive ImportOutcome (M : Type) where
  | ok (m : M)
  | runtimeError (msg : String)
  | otherError
deriving DecidableEq

/-- State of the loading loop: the insertion-ordered dict `loaded` and the
set `invalid` (represented as a duplicate-free list of strings). -/
structure LoadState (M : Type) where
  loaded : List (String × M)
  invalid : List String
deriving DecidableEq

/-- Python dict assignment `loaded[name] = module`: overwrite in place when
the key is present (keeping its original position), else append. -/
def dictSet {M : Type} (l : List (String × M)) (k : String) (v : M) : List (String × M) :=
  if l.any (fun p => p.1 == k) then
    l.map (fun p => if p.1 == k then (k, v) else p)
  else l ++ [(k, v)]

/-- Python set union `s |= t`: add the elements of `t` not already present. -/
def setUnion (s t : List String) : List String :=
  t.foldl (fun acc x => if acc.contains x then acc else acc ++ [x]) s

/-- The strings `load_modules` adds to `invalid` when importing `name` fails
with an import error:
`{".".join(name[:i]) for i in range(1, len(parts))}` where
`parts = name.split(".")` and `name[:i]` is a slice of the *string* `name`,
i.e. its first `i` characters. -/
def invalidAdditions (name : String) : List String :=
  (List.range' 1 ((splitDot name.toList).length - 1)).map
    (fun i => String.mk (dotJoinChars (name.toList.take i)))

/-- One iteration of the loading loop of `load_modules`: skip if the name is
in `invalid`; otherwise attempt the import; a `RuntimeError` whose message
contains `"Error importing"` extends `invalid`; any other `RuntimeError` is
swallowed; any other exception propagates (`Except.error`). -/
def processName {M : Type} (oracle : String → ImportOutcome M) (st : LoadState M)
    (name : String) : Except Unit (LoadState M) :=
  if st.invalid.contains name then .ok st
  else
    match oracle name with
    | .ok m => .ok { st with loaded := dictSet st.loaded name m }
    | .runtimeError msg =>
        if containsSub msg "Error importing" then
          .ok { st with invalid := setUnion st.invalid (invalidAdditions name) }
        else .ok st
    | .otherError => .error ()

/-- The whole loading loop of `load_modules` over the walker's stream of
candidate names, starting from a given state: process each name in order,
propagating a fatal exception. -/
def runLoadFrom {M : Type} (oracle : String → ImportOutcome M) (st : LoadState M) :
    List String → Except Unit (LoadState M)
  | [] => .ok st
  | n :: ns =>
      match processName oracle st n with
      | .ok st' => runLoadFrom oracle st' ns
      | .error e => .error e

/-- The loading loop started from the empty state. -/
def runLoad {M : Type} (oracle : String → ImportOutcome M) (names : List String) :
    Except Unit (LoadState M) :=
  runLoadFrom oracle ⟨[], []⟩ names

/-- `int(bool(name.count(".")))`: 1 when the name contains a dot, else 0. -/
def dotFlag (name : String) : Nat :=
  if name.toList.contains '.' then 1 else 0

/-- The sort key comparison of `load_modules`: Python tuple order on
`(int(bool(name.count("."))), name)`. -/
def keyLe (a b : String) : Bool :=
  if dotFlag a = dotFlag b then strLe a b else decide (dotFlag a < dotFlag b)

/-- The ordering relation on dict entries induced by the sort key. -/
def entryRel {M : Type} (a b : String × M) : Prop :=
  keyLe a.1 b.1 = true

instance {M : Type} : DecidableRel (entryRel (M := M)) :=
  fun a b => by unfold entryRel; infer_instance

/-- The final dict comprehension of `load_modules`: sort `loaded` by the
two-part key, then keep the entries whose name is not in `invalid`. -/
def finalize {M : Type} (st : LoadState M) : List (String × M) :=
  (List.insertionSort entryRel st.loaded).filter (fun p => !st.invalid.contains p.1)

/-- `load_modules(modules)`: run the loading loop, then sort and filter. -/
def loadModules {M : Type} (oracle : String → ImportOutcome M) (names : List String) :
    Except Unit (List (String × M)) :=
  (runLoad oracle names).map finalize

/-! ## Filesystem model -/

/-- Contents of one file on disk: text written by `write_text`/`write_bytes`,
or a JSON array of records written by `json.dump` (records kept opaque). -/
inductive FData where
  | text (s : String)
  | json (l : List String)
deriving DecidableEq

/-- The files on disk: path string to contents. -/
def FS : Type := String → Option FData

/-- Writing one file. -/
def fsUpdate (fs : FS) (p : String) (d : FData) : FS :=
  fun q => if q = p then some d else fs q

/-- Record of created directories, deduplicated. -/
def dirAdd (dirs : List String) (p : String) : List String :=
  if dirs.contains p then dirs else dirs ++ [p]

/-- The disk: files plus the record of directories created with `mkdir`. -/
structure Disk where
  files : FS
  dirs : List String

/-- `path.mkdir(parents=True, exist_ok=True)`. -/
def mkdirP (d : Disk) (p : String) : Disk :=
  { d with dirs := dirAdd d.dirs p }

/-- The parent directory of a path: everything before the last separator. -/
def parentDir (p : String) : String :=
  String.intercalate "/" ((p.splitOn "/").dropLast)

/-! ## The generic persistent memoizing cache (`Cache`) -/

/-- A specialization of the generic `Cache[K, V]`: a root directory, the
`key` path derivation, the serialization written by `save`, the
deserialization performed by `load`, and the expensive `compute` fallback. -/
structure CacheModel (K V : Type) where
  root : String
  key : K → String
  encode : V → FData
  decode : FData → V
  compute : K → V

/-- `self.path / self.key(key)`. -/
def CacheModel.fullPath {K V : Type} (c : CacheModel K V) (k : K) : String :=
  c.root ++ "/" ++ c.key k

/-- `__getitem__`: load the file at the derived path; `none` models the
raised `KeyError` when the path does not exist. -/
def CacheModel.getItem {K V : Type} (c : CacheModel K V) (fs : FS) (k : K) : Option V :=
  (fs (c.fullPath k)).map c.decode

/-- `__setitem__`: create the parent directory, then save at the derived path. -/
def CacheModel.setItem {K V : Type} (c : CacheModel K V) (d : Disk) (k : K) (v : V) : Disk :=
  { files := fsUpdate d.files (c.fullPath k) (c.encode v)
    dirs := dirAdd d.dirs (parentDir (c.fullPath k)) }

/-- `__contains__`: the derived path exists on disk. -/
def CacheModel.mem {K V : Type} (c : CacheModel K V) (fs : FS) (k : K) : Bool :=
  (fs (c.fullPath k)).isSome

/-- `get`: return the stored value on a hit; on a `KeyError` call `compute`,
store the result, and return it. The third component counts the `compute`
calls made by this `get`. -/
def CacheModel.get {K V : Type} (c : CacheModel K V) (d : Disk) (k : K) : V × Disk × Nat :=
  match c.getItem d.files k with
  | some v => (v, d, 0)
  | none =>
      let v := c.compute k
      (v, c.setItem d k v, 1)

/-! ## Cache specializations and the build pipeline -/

/-- `fullname.replace(".", "/")`: every dot replaced by a path separator. -/
def dotsToSlashes (s : String) : String :=
  String.mk (s.toList.map (fun c => if c = '.' then '/' else c))

/-- `CacheHTML.key`: `Path(key.fullname.replace(".", "/") + ".html")`. -/
def cacheHTMLKey (fullname : String) : String :=
  dotsToSlashes fullname ++ ".html"

/-- `CacheIndex.key`: `Path(key[0].replace(".", "/") + ".json")` — only the
name component of the `(name, module)` pair is used. -/
def cacheIndexKey (name : String) : String :=
  dotsToSlashes name ++ ".json"

/-- The external collaborators of the build, plus the global
`pdoc.render.env.globals["search"]` flag. A module is identified by its
`fullname`; within one build the module map is fixed, so each collaborator
is a function of the module name. -/
structure Collab where
  searchEnabled : Bool
  htmlModule : String → String
  htmlIndex : String
  makeIndex : String → List String
  searchJs : List String → String

/-- The `CacheHTML` specialization rooted at the output directory
(`CacheHTML(output_directory, modules)` in `render_modules`):
text round-trips, `compute` delegates to `pdoc.render.html_module`. -/
def cacheHTML (collab : Collab) (output : String) : CacheModel String String :=
  { root := output
    key := cacheHTMLKey
    encode := .text
    decode := fun d => match d with | .text s => s | .json _ => ""
    compute := collab.htmlModule }

/-- The `CacheIndex` specialization: JSON list round-trips, `compute`
delegates to `pdoc.search.make_index` for the one named module. -/
def cacheIndexCache (collab : Collab) (root : String) : CacheModel String (List String) :=
  { root := root
    key := cacheIndexKey
    encode := .json
    decode := fun d => match d with | .json l => l | .text _ => []
    compute := collab.makeIndex }

/-- Result of `search_index(modules, cache_path)` together with its
observable effects. -/
structure SearchRun where
  value : String
  disk : Disk
  cacheRoot : String
  ctxRendered : Bool
  fetched : List String
  computes : Nat

/-- The loop `[idx for name, mod in modules.items() for idx in
cache.get((name, mod))]`: fetch every module's fragment list through the
cache, concatenating the entries; also count the `compute` calls. -/
def searchLoop (c : CacheModel String (List String)) :
    List String → Disk → List String × Disk × Nat
  | [], d => ([], d, 0)
  | n :: ns, d =>
      let r := c.get d n
      let rest := searchLoop c ns r.2.1
      (r.1 ++ rest.1, rest.2.1, r.2.2 + rest.2.2)

/-- `search_index(modules, cache_path)`: construct the `CacheIndex`
(which creates the cache root directory and performs the one-time template
context render), then return `""` if the global search flag is off, else
fetch all fragments and render the search payload. -/
def searchIndexRun (collab : Collab) (modules : List String) (cachePath : String)
    (d : Disk) : SearchRun :=
  let cache := cacheIndexCache collab cachePath
  let d0 := mkdirP d cachePath
  if collab.searchEnabled = false then
    { value := "", disk := d0, cacheRoot := cachePath, ctxRendered := true
      fetched := [], computes := 0 }
  else
    let r := searchLoop cache modules d0
    { value := collab.searchJs r.1, disk := r.2.1, cacheRoot := cachePath
      ctxRendered := true, fetched := modules, computes := r.2.2 }

/-- Result of `render_modules(modules, output_directory)`. -/
structure RenderRun where
  disk : Disk
  search : SearchRun
  wroteIndexHtml : Bool
  wroteSearchJs : Bool

/-- The rendering loop: `if module not in cache: cache[module] =
cache.compute(module)` for each module in order. -/
def renderHTMLLoop (c : CacheModel String String) : List String → Disk → Disk
  | [], d => d
  | n :: ns, d =>
      let d' := if c.mem d.files n then d else c.setItem d n (c.compute n)
      renderHTMLLoop c ns d'

/-- `if content: path.write_bytes(content.encode())` — write a root output
file only when its computed content is nonempty; report whether it was
written. -/
def writeIfNonempty (d : Disk) (p : String) (content : String) : Disk × Bool :=
  if content = "" then (d, false)
  else ({ d with files := fsUpdate d.files p (.text content) }, true)

/-- `render_modules(modules, output_directory)`: render every module through
the HTML cache rooted at the output directory, write `index.html` when the
aggregate index is nonempty, compute the search payload with the fragment
cache rooted at `output/.cache/search`, and write `search.js` when that
payload is nonempty. -/
def renderModulesRun (collab : Collab) (modules : List String) (output : String)
    (d : Disk) : RenderRun :=
  let cache := cacheHTML collab output
  let d0 := mkdirP d output
  let d1 := renderHTMLLoop cache modules d0
  let step2 := writeIfNonempty d1 (output ++ "/index.html") collab.htmlIndex
  let sr := searchIndexRun collab modules (output ++ "/.cache/search") step2.1
  let step3 := writeIfNonempty sr.disk (output ++ "/search.js") sr.value
  { disk := step3.1, search := sr, wroteIndexHtml := step2.2, wroteSearchJs := step3.2 }

/-! ## Dotted and slashed name joins (for stating path-derivation facts) -/

/-- A dotted name assembled from its parts. -/
def dotName : List String → String
  | [] => ""
  | [p] => p
  | p :: ps => p ++ "." ++ dotName ps

/-- The same parts joined with path separators. -/
def slashName : List String → String
  | [] => ""
  | [p] => p
  | p :: ps => p ++ "/" ++ slashName ps

/-! ## Helper lemmas -/

theorem charListLe_total : ∀ as bs : List Char, charListLe as bs = true ∨ charListLe bs as = true := by
  intro as
  induction as with
  | nil => intro bs; left; rfl
  | cons a at' ih =>
    intro bs
    cases bs with
    | nil => right; rfl
    | cons b bt =>
      by_cases hab : a = b
      · subst hab
        rcases ih bt with h | h
        · left; simpa [charListLe] using h
        · right; simpa [charListLe] using h
      · have hba : ¬b = a := fun h => hab h.symm
        rcases lt_trichotomy a b with h | h | h
        · left; simp [charListLe, hab, h]
        · exact absurd h hab
        · right; simp [charListLe, hba, h]

theorem charListLe_trans :
    ∀ as bs cs : List Char, charListLe as bs = true → charListLe bs cs = true →
      charListLe as cs = true := by
  intro as
  induction as with
  | nil => intro bs cs _ _; rfl
  | cons a at' ih =>
    intro bs cs h1 h2
    cases bs with
    | nil => simp [charListLe] at h1
    | cons b bt =>
      cases cs with
      | nil => simp [charListLe] at h2
      | cons c ct =>
        simp only [charListLe] at h1 h2 ⊢
        by_cases hab : a = b
        · subst hab
          by_cases hac : a = c
          · subst hac
            simp only [if_pos rfl] at h1 h2 ⊢
            exact ih bt ct h1 h2
          · simp only [if_pos rfl] at h1
            simp only [if_neg hac] at h2 ⊢
            exact h2
        · by_cases hbc : b = c
          · subst hbc
            simp only [if_neg hab] at h1 ⊢
            exact h1
          · simp only [if_neg hab] at h1
            simp only [if_neg hbc] at h2
            have hlt : a < c := lt_trans (of_decide_eq_true h1) (of_decide_eq_true h2)
            have hac : ¬a = c := ne_of_lt hlt
            simp [if_neg hac, hlt]

theorem keyLe_total (a b : String) : keyLe a b = true ∨ keyLe b a = true := by
  unfold keyLe
  by_cases h : dotFlag a = dotFlag b
  · simp only [if_pos h, if_pos h.symm]
    exact charListLe_total a.toList b.toList
  · have h' : ¬dotFlag b = dotFlag a := fun hh => h hh.symm
    rcases Nat.lt_trichotomy (dotFlag a) (dotFlag b) with hlt | heq | hgt
    · left; simp [if_neg h, hlt]
    · exact absurd heq h
    · right; simp [if_neg h', hgt]

theorem keyLe_trans (a b c : String) :
    keyLe a b = true → keyLe b c = true → keyLe a c = true := by
  unfold keyLe
  intro h1 h2
  by_cases hab : dotFlag a = dotFlag b
  · by_cases hbc : dotFlag b = dotFlag c
    · have hac : dotFlag a = dotFlag c := hab.trans hbc
      simp only [if_pos hab] at h1
      simp only [if_pos hbc] at h2
      simp only [if_pos hac]
      exact charListLe_trans a.toList b.toList c.toList h1 h2
    · simp only [if_neg hbc] at h2
      have hlt : dotFlag b < dotFlag c := of_decide_eq_true h2
      have hac : ¬dotFlag a = dotFlag c := by omega
      simp only [if_neg hac]
      have : dotFlag a < dotFlag c := by omega
      exact decide_eq_true this
  · simp only [if_neg hab] at h1
    have hlt1 : dotFlag a < dotFlag b := of_decide_eq_true h1
    by_cases hbc : dotFlag b = dotFlag c
    · have hac : ¬dotFlag a = dotFlag c := by omega
      simp only [if_neg hac]
      have : dotFlag a < dotFlag c := by omega
      exact decide_eq_true this
    · simp only [if_neg hbc] at h2
      have hlt2 : dotFlag b < dotFlag c := of_decide_eq_true h2
      have hac : ¬dotFlag a = dotFlag c := by omega
      simp only [if_neg hac]
      have : dotFlag a < dotFlag c := by omega
      exact decide_eq_true this

instance {M : Type} : IsTotal (String × M) entryRel :=
  ⟨fun a b => by unfold entryRel; exact keyLe_total a.1 b.1⟩

instance {M : Type} : IsTrans (String × M) entryRel :=
  ⟨fun a b c h1 h2 => by
    unfold entryRel at h1 h2 ⊢
    exact keyLe_trans a.1 b.1 c.1 h1 h2⟩

/-- The output of `finalize` is sorted by the two-part key. -/
theorem finalize_pairwise {M : Type} (st : LoadState M) :
    (finalize st).Pairwise entryRel := by
  have hs : List.Sorted entryRel (List.insertionSort entryRel st.loaded) :=
    List.sorted_insertionSort entryRel st.loaded
  exact List.Pairwise.sublist (List.filter_sublist _) hs

theorem splitDot_ne_nil : ∀ cs : List Char, splitDot cs ≠ [] := by
  intro cs
  cases cs with
  | nil => simp [splitDot]
  | cons c ct =>
    simp only [splitDot]
    cases h : splitDot ct with
    | nil => simp
    | cons g gs =>
      by_cases hc : c = '.'
      · simp [hc]
      · simp [hc]

theorem splitDot_length_of_no_dot :
    ∀ cs : List Char, '.' ∉ cs → (splitDot cs).length = 1 := by
  intro cs
  induction cs with
  | nil => intro _; rfl
  | cons c ct ih =>
    intro h
    have hc : ¬c = '.' := fun hh => h (by simp [hh])
    have hct : '.' ∉ ct := fun hh => h (by simp [hh])
    simp only [splitDot]
    cases hsd : splitDot ct with
    | nil => exact absurd hsd (splitDot_ne_nil ct)
    | cons g gs =>
      simp only [if_neg hc, List.length_cons]
      have := ih hct
      rw [hsd] at this
      simpa using this

/-- A dot-free name contributes nothing to the invalid set. -/
theorem invalidAdditions_of_no_dot (name : String) (h : '.' ∉ name.toList) :
    invalidAdditions name = [] := by
  unfold invalidAdditions
  rw [splitDot_length_of_no_dot name.toList h]
  rfl

/-- Processing a dot-free candidate that fails with an import error leaves
the loader state untouched. -/
theorem processName_import_error_no_dot {M : Type} (oracle : String → ImportOutcome M)
    (st : LoadState M) (bad msg : String) (hdot : '.' ∉ bad.toList)
    (ho : oracle bad = .runtimeError msg)
    (hmsg : containsSub msg "Error importing" = true) :
    processName oracle st bad = Except.ok st := by
  unfold processName
  by_cases hin : st.invalid.contains bad = true
  · rw [if_pos hin]
  · rw [if_neg hin, ho]
    rw [invalidAdditions_of_no_dot bad hdot]
    simp [hmsg, setUnion]

/-- Dropping a dot-free import-error candidate from the stream does not
change the loading loop's result, from any start state. -/
theorem runLoadFrom_drop_bad {M : Type} (oracle : String → ImportOutcome M)
    (post : List String) (bad msg : String) (hdot : '.' ∉ bad.toList)
    (ho : oracle bad = .runtimeError msg)
    (hmsg : containsSub msg "Error importing" = true) :
    ∀ (pre : List String) (st : LoadState M),
      runLoadFrom oracle st (pre ++ bad :: post) = runLoadFrom oracle st (pre ++ post) := by
  intro pre
  induction pre with
  | nil =>
    intro st
    simp only [List.nil_append, runLoadFrom]
    rw [processName_import_error_no_dot oracle st bad msg hdot ho hmsg]
  | cons p pt ih =>
    intro st
    simp only [List.cons_append, runLoadFrom]
    cases h : processName oracle st p with
    | ok st' => exact ih st'
    | error e => rfl

/-! ## Concrete import behaviours used in counterexamples and witnesses -/

/-- Importing `pkg.broken` raises the import error pdoc raises; every other
name imports fine. -/
def oracleC1 : String → ImportOutcome Unit := fun n =>
  if n = "pkg.broken" then .runtimeError "Error importing pkg.broken" else .ok ()

/-- Importing `a.b` raises an import error; every other name imports fine. -/
def oracleC2 : String → ImportOutcome Unit := fun n =>
  if n = "a.b" then .runtimeError "Error importing a.b" else .ok ()

/-- Importing `a` raises a `RuntimeError` that is not an import error. -/
def oracleC5 : String → ImportOutcome Unit := fun n =>
  if n = "a" then .runtimeError "boom" else .ok ()

/-- Importing `x` raises an exception that is not a `RuntimeError`. -/
def oracleC5b : String → ImportOutcome Unit := fun n =>
  if n = "x" then .otherError else .ok ()

/-- Importing `top` raises an import error; every other name imports fine. -/
def oracleC9 : String → ImportOutcome Unit := fun n =>
  if n = "top" then .runtimeError "Error importing top" else .ok ()

/-- Every candidate imports fine. -/
def oracleAllOk : String → ImportOutcome Unit := fun _ => .ok ()

/-! ## Claim theorems -/

/-- C1: when importing `pkg.broken` fails with an import error, the code
does not add the ancestor dotted-prefix `pkg` to the invalid set.
It dot-joins the characters of the string slice `name[:i]` instead of the
first `i` dotted parts, so the run adds exactly the string `"p"`, which is
not `"pkg"`. The final mapping is nevertheless empty here, but the recorded
invalid entry is garbage. -/
theorem c1_invalid_is_char_slice :
    invalidAdditions "pkg.broken" = ["p"] ∧
    invalidAdditions "a.b.c" = ["a", "a.."] ∧
    runLoad oracleC1 ["pkg.broken"] = Except.ok ⟨[], ["p"]⟩ ∧
    loadModules oracleC1 ["pkg.broken"] = Except.ok [] ∧
    "p" ≠ "pkg" :=
  ⟨rfl, rfl, rfl, rfl, by decide⟩

/-- C2 counterexample: with `a.b` failing as an import error and `a.c`
importable, the final invalid set is `{"a"}`, yet `a.c` — a dotted-prefix
descendant of the invalid member `a` — is imported (not skipped) and is an
entry of the final returned mapping. This falsifies both halves of the
claim: ancestor prefixes are not consulted when skipping, and the final
mapping may contain descendants of invalid members. -/
theorem c2_counterexample :
    runLoad oracleC2 ["a.b", "a.c"] = Except.ok ⟨[("a.c", ())], ["a"]⟩ ∧
    loadModules oracleC2 ["a.b", "a.c"] = Except.ok [("a.c", ())] ∧
    "a" ++ "." ++ "c" = "a.c" :=
  ⟨rfl, rfl, rfl⟩

/-- C2 amended: the Loader skips a candidate without attempting an import
exactly when the candidate's own name is a member of the invalid set
(ancestor dotted-prefixes are not consulted), and every entry of the final
returned mapping has a name that is not itself a member of the final
invalid set (descendants of invalid members may remain). -/
theorem c2_exact_membership {M : Type} (oracle : String → ImportOutcome M) :
    (∀ (st : LoadState M) (name : String), st.invalid.contains name = true →
      processName oracle st name = Except.ok st) ∧
    (∀ (st : LoadState M) (name : String) (m : M), st.invalid.contains name = false →
      oracle name = .ok m →
      processName oracle st name =
        Except.ok { st with loaded := dictSet st.loaded name m }) ∧
    (∀ (st : LoadState M) (p : String × M), p ∈ finalize st →
      st.invalid.contains p.1 = false) := by
  refine ⟨?_, ?_, ?_⟩
  · intro st name h
    unfold processName
    rw [if_pos h]
  · intro st name m h ho
    have hmem : name ∉ st.invalid := by simpa using h
    simp [processName, hmem, ho]
  · intro st p hp
    unfold finalize at hp
    have := (List.mem_filter.mp hp).2
    simpa using this

/-- C2 witness: the three parts of the amended claim at concrete inputs. -/
theorem c2_exact_membership_witness :
    processName oracleC2 ⟨[], ["a.c"]⟩ "a.c" = Except.ok ⟨[], ["a.c"]⟩ ∧
    processName oracleC2 ⟨[], ["a"]⟩ "a.c" = Except.ok ⟨[("a.c", ())], ["a"]⟩ ∧
    (⟨[("a.c", ())], ["a"]⟩ : LoadState Unit).invalid.contains "a.c" = false :=
  ⟨(c2_exact_membership oracleC2).1 ⟨[], ["a.c"]⟩ "a.c" rfl,
   (c2_exact_membership oracleC2).2.1 ⟨[], ["a"]⟩ "a.c" () rfl rfl,
   (c2_exact_membership oracleC2).2.2 ⟨[("a.c", ())], ["a"]⟩ ("a.c", ()) (by decide)⟩

/-- C5 counterexample: importing `a` raises a `RuntimeError` whose message
`"boom"` is not an import-time error, yet the run does not abort — the
error is silently swallowed, `a` is skipped, and loading continues with
`b`. This falsifies "any other raised condition during import propagates
immediately and aborts the whole build". -/
theorem c5_counterexample :
    containsSub "boom" "Error importing" = false ∧
    loadModules oracleC5 ["a", "b"] = Except.ok [("b", ())] ∧
    runLoad oracleC5 ["a", "b"] = Except.ok ⟨[("b", ())], []⟩ :=
  ⟨rfl, rfl, rfl⟩

/-- C5 amended: an exception raised while importing a candidate is
recoverable exactly when it is a `RuntimeError`: any `RuntimeError`
(import-time error or not) lets loading continue, while any other raised
condition propagates immediately and aborts the run. -/
theorem c5_runtimeerror_recoverable {M : Type} (oracle : String → ImportOutcome M)
    (st : LoadState M) (name msg : String)
    (hskip : st.invalid.contains name = false) :
    (oracle name = .runtimeError msg →
      ∃ st', processName oracle st name = Except.ok st') ∧
    (oracle name = .otherError → processName oracle st name = Except.error ()) := by
  have hmem : name ∉ st.invalid := by simpa using hskip
  constructor
  · intro ho
    by_cases hc : containsSub msg "Error importing" = true
    · exact ⟨{ st with invalid := setUnion st.invalid (invalidAdditions name) },
        by simp [processName, hmem, ho, hc]⟩
    · exact ⟨st, by simp [processName, hmem, ho, hc]⟩
  · intro ho
    simp [processName, hmem, ho]

/-- C5 witness: a non-import `RuntimeError` is survived; a non-`RuntimeError`
exception aborts. -/
theorem c5_runtimeerror_recoverable_witness :
    (∃ st', processName oracleC5 ⟨[], []⟩ "a" = Except.ok st') ∧
    processName oracleC5b ⟨[], []⟩ "x" = Except.error () :=
  ⟨(c5_runtimeerror_recoverable oracleC5 ⟨[], []⟩ "a" "boom" rfl).1 rfl,
   (c5_runtimeerror_recoverable oracleC5b ⟨[], []⟩ "x" "" rfl).2 rfl⟩

/-- C6: the final mapping returned by the Loader is ordered by the two-part
key — every dot-free name precedes every dotted name, and each tier is in
lexicographic order — and on loaded names `{"b", "a.x", "a", "c.y"}` the
result is `["a", "b", "a.x", "c.y"]`. -/
theorem c6_final_ordering :
    (∀ (M : Type) (oracle : String → ImportOutcome M) (names : List String)
      (out : List (String × M)), loadModules oracle names = Except.ok out →
      out.Pairwise entryRel) ∧
    loadModules oracleAllOk ["b", "a.x", "a", "c.y"] =
      Except.ok [("a", ()), ("b", ()), ("a.x", ()), ("c.y", ())] := by
  constructor
  · intro M oracle names out h
    unfold loadModules at h
    cases hr : runLoad oracle names with
    | error e => rw [hr] at h; simp [Except.map] at h
    | ok st =>
      rw [hr] at h
      simp only [Except.map] at h
      cases h
      exact finalize_pairwise st
  · rfl

/-- C6 witness: the general ordering theorem applied to the concrete loaded
set of the claim. -/
theorem c6_final_ordering_witness :
    List.Pairwise entryRel [("a", ()), ("b", ()), ("a.x", ()), ("c.y", ())] :=
  c6_final_ordering.1 Unit oracleAllOk ["b", "a.x", "a", "c.y"]
    [("a", ()), ("b", ()), ("a.x", ()), ("c.y", ())] c6_final_ordering.2

/-- C9: a dot-free candidate that fails with an import-time error leaves the
invalid set (indeed the whole loader state) unchanged, and the run is
identical to the run with that candidate removed from the stream — its only
effect is its own absence from the final mapping; no later candidate is
skipped because of it. -/
theorem c9_top_level_failure {M : Type} (oracle : String → ImportOutcome M)
    (pre post : List String) (bad msg : String) (hdot : '.' ∉ bad.toList)
    (ho : oracle bad = .runtimeError msg)
    (hmsg : containsSub msg "Error importing" = true) :
    (∀ st : LoadState M, processName oracle st bad = Except.ok st) ∧
    loadModules oracle (pre ++ bad :: post) = loadModules oracle (pre ++ post) := by
  refine ⟨fun st => processName_import_error_no_dot oracle st bad msg hdot ho hmsg, ?_⟩
  unfold loadModules runLoad
  rw [runLoadFrom_drop_bad oracle post bad msg hdot ho hmsg pre ⟨[], []⟩]

/-- C9 witness: dropping the failing top-level candidate `top` between `a`
and `b` changes nothing. -/
theorem c9_top_level_failure_witness :
    processName oracleC9 ⟨[("a", ())], []⟩ "top" = Except.ok ⟨[("a", ())], []⟩ ∧
    loadModules oracleC9 (["a"] ++ "top" :: ["b"]) = loadModules oracleC9 (["a"] ++ ["b"]) := by
  have h := c9_top_level_failure oracleC9 ["a"] ["b"] "top" "Error importing top"
    (by decide) rfl rfl
  exact ⟨h.1 ⟨[("a", ())], []⟩, h.2⟩

/-- C4: on a key whose derived path does not exist, `get` computes exactly
once, stores the encoded result at the derived path (recording the parent
directory creation), and returns the computed value; a second `get` on the
same key computes zero times and returns an equal value, given that `load`
is a left inverse of `save`. -/
theorem c4_memoization {K V : Type} (c : CacheModel K V) (d : Disk) (k : K)
    (hmiss : d.files (c.fullPath k) = none)
    (hinv : ∀ v, c.decode (c.encode v) = v) :
    (c.get d k).2.2 = 1 ∧
    (c.get d k).1 = c.compute k ∧
    (c.get d k).2.1.files (c.fullPath k) = some (c.encode (c.compute k)) ∧
    (c.get d k).2.1.dirs = dirAdd d.dirs (parentDir (c.fullPath k)) ∧
    (c.get (c.get d k).2.1 k).2.2 = 0 ∧
    (c.get (c.get d k).2.1 k).1 = (c.get d k).1 := by
  have h1 : c.get d k = (c.compute k, c.setItem d k (c.compute k), 1) := by
    simp [CacheModel.get, CacheModel.getItem, hmiss]
  have h2 : (c.setItem d k (c.compute k)).files (c.fullPath k) =
      some (c.encode (c.compute k)) := by
    simp [CacheModel.setItem, fsUpdate]
  refine ⟨by rw [h1], by rw [h1], ?_, ?_, ?_, ?_⟩
  · rw [h1]; exact h2
  · rw [h1]; simp [CacheModel.setItem]
  · rw [h1]; simp [CacheModel.get, CacheModel.getItem, h2, hinv]
  · rw [h1]; simp [CacheModel.get, CacheModel.getItem, h2, hinv]

/-- A small concrete cache specialization: values are serialized as JSON
arrays whose length recovers the value. -/
def cacheW : CacheModel Nat Nat :=
  { root := "root"
    key := fun k => toString k ++ ".txt"
    encode := fun v => .json (List.replicate v "e")
    decode := fun fd => match fd with | .json l => l.length | .text _ => 0
    compute := fun k => k + 1 }

/-- The empty disk. -/
def diskEmpty : Disk := ⟨fun _ => none, []⟩

/-- C4 witness: the memoization law evaluated on a concrete cache at key 3. -/
theorem c4_memoization_witness :
    (cacheW.get diskEmpty 3).2.2 = 1 ∧
    (cacheW.get diskEmpty 3).1 = cacheW.compute 3 ∧
    (cacheW.get diskEmpty 3).2.1.files (cacheW.fullPath 3) =
      some (cacheW.encode (cacheW.compute 3)) ∧
    (cacheW.get diskEmpty 3).2.1.dirs = dirAdd diskEmpty.dirs (parentDir (cacheW.fullPath 3)) ∧
    (cacheW.get (cacheW.get diskEmpty 3).2.1 3).2.2 = 0 ∧
    (cacheW.get (cacheW.get diskEmpty 3).2.1 3).1 = (cacheW.get diskEmpty 3).1 :=
  c4_memoization cacheW diskEmpty 3 rfl (fun v => by simp [cacheW])

theorem toList_append (a b : String) : (a ++ b).toList = a.toList ++ b.toList := rfl

theorem mk_append (xs ys : List Char) : String.mk xs ++ String.mk ys = String.mk (xs ++ ys) := rfl

theorem dotsToSlashes_append (a b : String) :
    dotsToSlashes (a ++ b) = dotsToSlashes a ++ dotsToSlashes b := by
  unfold dotsToSlashes
  rw [mk_append]
  apply congrArg String.mk
  show List.map _ (a.data ++ b.data) = _
  rw [List.map_append]
  rfl

theorem dotsToSlashes_no_dot (p : String) (h : '.' ∉ p.toList) : dotsToSlashes p = p := by
  unfold dotsToSlashes
  have hmap : p.toList.map (fun c => if c = '.' then '/' else c) = p.toList := by
    have := List.map_congr_left (l := p.toList)
      (f := fun c => if c = '.' then '/' else c) (g := id)
      (fun a ha => by
        have : ¬a = '.' := fun hh => h (hh ▸ ha)
        simp [this])
    simpa using this
  rw [hmap]
  rfl

theorem dotsToSlashes_dotName :
    ∀ parts : List String, (∀ p ∈ parts, '.' ∉ p.toList) →
      dotsToSlashes (dotName parts) = slashName parts := by
  intro parts
  induction parts with
  | nil => intro _; rfl
  | cons p ps ih =>
    intro h
    cases ps with
    | nil => exact dotsToSlashes_no_dot p (h p (by simp))
    | cons q qs =>
      show dotsToSlashes (p ++ "." ++ dotName (q :: qs)) = p ++ "/" ++ slashName (q :: qs)
      rw [dotsToSlashes_append, dotsToSlashes_append]
      rw [dotsToSlashes_no_dot p (h p (by simp))]
      rw [ih (fun x hx => h x (by simp [hx]))]
      rfl

/-- C8: the HTML cache's storage path replaces every dot of the module's
dotted fullname by a path separator and appends `.html`; in particular
`pkg.sub` maps to `pkg/sub.html`. -/
theorem c8_key_derivation :
    (∀ parts : List String, (∀ p ∈ parts, '.' ∉ p.toList) →
      cacheHTMLKey (dotName parts) = slashName parts ++ ".html") ∧
    cacheHTMLKey "pkg.sub" = "pkg/sub.html" := by
  constructor
  · intro parts h
    unfold cacheHTMLKey
    rw [dotsToSlashes_dotName parts h]
  · rfl

/-- C8 witness: the general derivation law at the parts of `pkg.sub`. -/
theorem c8_key_derivation_witness :
    cacheHTMLKey (dotName ["pkg", "sub"]) = slashName ["pkg", "sub"] ++ ".html" :=
  c8_key_derivation.1 ["pkg", "sub"] (by decide)

/-- Collaborators with search disabled, an empty aggregate index, and a
fixed per-module page. -/
def collabOff : Collab :=
  { searchEnabled := false
    htmlModule := fun _ => "X"
    htmlIndex := ""
    makeIndex := fun _ => []
    searchJs := fun _ => "" }

/-- C3 counterexample: rendering modules `sys` and `pkg.sub` persists their
HTML pages at `out/sys.html` and `out/pkg/sub.html` — directly under the
output root, not under the `out/.cache/` subtree, and with `out/sys.html` a
root-level file other than `index.html`/`search.js`. Only the search
fragment cache is rooted under `out/.cache`. -/
theorem c3_counterexample :
    (renderModulesRun collabOff ["sys", "pkg.sub"] "out" diskEmpty).disk.files "out/pkg/sub.html"
      = some (.text "X") ∧
    (renderModulesRun collabOff ["sys", "pkg.sub"] "out" diskEmpty).disk.files "out/sys.html"
      = some (.text "X") ∧
    startsWithChars "out/pkg/sub.html".toList "out/.cache".toList = false ∧
    startsWithChars "out/sys.html".toList "out/.cache".toList = false ∧
    (renderModulesRun collabOff ["sys", "pkg.sub"] "out" diskEmpty).search.cacheRoot
      = "out/.cache/search" :=
  ⟨rfl, rfl, rfl, rfl, rfl⟩

/-- The write flag of `writeIfNonempty` is set exactly when the content is
nonempty. -/
theorem writeIfNonempty_flag (d : Disk) (p content : String) :
    (writeIfNonempty d p content).2 = true ↔ content ≠ "" := by
  by_cases h : content = "" <;> simp [writeIfNonempty, h]

/-- C3 amended: the HTML cache is rooted at the output directory itself, so
pages mirror the dotted hierarchy directly under the output root; only the
JSON search-fragment cache lives under `output/.cache` (at
`output/.cache/search`); `index.html` and `search.js` are written at the
output root exactly when their computed content is nonempty. -/
theorem c3_layout (collab : Collab) (modules : List String) (output : String) (d : Disk) :
    (cacheHTML collab output).root = output ∧
    (∀ n, (cacheHTML collab output).fullPath n = output ++ "/" ++ cacheHTMLKey n) ∧
    (renderModulesRun collab modules output d).search.cacheRoot = output ++ "/.cache/search" ∧
    (∀ r n, (cacheIndexCache collab r).fullPath n = r ++ "/" ++ cacheIndexKey n) ∧
    ((renderModulesRun collab modules output d).wroteIndexHtml = true ↔
      collab.htmlIndex ≠ "") ∧
    ((renderModulesRun collab modules output d).wroteSearchJs = true ↔
      (renderModulesRun collab modules output d).search.value ≠ "") := by
  refine ⟨rfl, fun n => rfl, ?_, fun r n => rfl, ?_, ?_⟩
  · show (searchIndexRun collab modules (output ++ "/.cache/search") _).cacheRoot = _
    unfold searchIndexRun
    by_cases h : collab.searchEnabled = false <;> simp [h]
  · exact writeIfNonempty_flag _ _ _
  · exact writeIfNonempty_flag _ _ _

/-- C7: with the global search flag off, the search-index computation
returns the empty string, fetches no fragment key, performs no `compute`,
writes no file, and `render_modules` writes no `search.js`. -/
theorem c7_search_disabled (collab : Collab) (modules : List String) (p output : String)
    (d : Disk) (h : collab.searchEnabled = false) :
    (searchIndexRun collab modules p d).value = "" ∧
    (searchIndexRun collab modules p d).fetched = [] ∧
    (searchIndexRun collab modules p d).computes = 0 ∧
    (searchIndexRun collab modules p d).disk.files = d.files ∧
    (renderModulesRun collab modules output d).wroteSearchJs = false := by
  have hs : ∀ (q : String) (d' : Disk), searchIndexRun collab modules q d' =
      { value := "", disk := mkdirP d' q, cacheRoot := q, ctxRendered := true
        fetched := [], computes := 0 } := by
    intro q d'
    unfold searchIndexRun
    rw [if_pos h]
  refine ⟨by rw [hs], by rw [hs], by rw [hs], by rw [hs]; rfl, ?_⟩
  show (writeIfNonempty (searchIndexRun collab modules (output ++ "/.cache/search") _).disk
      (output ++ "/search.js")
      (searchIndexRun collab modules (output ++ "/.cache/search") _).value).2 = false
  rw [hs]
  rfl

/-- C7 witness: the disabled-search run at concrete inputs. -/
theorem c7_search_disabled_witness :
    (searchIndexRun collabOff ["sys"] "out/.cache/search" diskEmpty).value = "" ∧
    (searchIndexRun collabOff ["sys"] "out/.cache/search" diskEmpty).fetched = [] ∧
    (searchIndexRun collabOff ["sys"] "out/.cache/search" diskEmpty).computes = 0 ∧
    (searchIndexRun collabOff ["sys"] "out/.cache/search" diskEmpty).disk.files =
      diskEmpty.files ∧
    (renderModulesRun collabOff ["sys"] "out" diskEmpty).wroteSearchJs = false :=
  c7_search_disabled collabOff ["sys"] "out/.cache/search" "out" diskEmpty rfl

/-- C10: constructing the search-fragment cache happens before the search
flag is consulted: even with search disabled, `search_index` creates the
cache root directory on disk and performs the one-time template-context
render. -/
theorem c10_construction_effects (collab : Collab) (modules : List String) (p : String)
    (d : Disk) (h : collab.searchEnabled = false) :
    (searchIndexRun collab modules p d).ctxRendered = true ∧
    (searchIndexRun collab modules p d).disk.dirs = dirAdd d.dirs p ∧
    (searchIndexRun collab modules p d).cacheRoot = p := by
  unfold searchIndexRun
  rw [if_pos h]
  exact ⟨rfl, rfl, rfl⟩

/-- C10 witness: the construction effects at concrete inputs with search
disabled. -/
theorem c10_construction_effects_witness :
    (searchIndexRun collabOff ["sys"] "out/.cache/search" diskEmpty).ctxRendered = true ∧
    (searchIndexRun collabOff ["sys"] "out/.cache/search" diskEmpty).disk.dirs =
      dirAdd diskEmpty.dirs "out/.cache/search" ∧
    (searchIndexRun collabOff ["sys"] "out/.cache/search" diskEmpty).cacheRoot =
      "out/.cache/search" :=
  c10_construction_effects collabOff ["sys"] "out/.cache/search" diskEmpty rfl

end Voc
